import Mathlib

/-!
Verification of the claude-code-container task executor and orchestrator.

The development shallowly embeds the two tiers of the system:

* the sandbox-side task executor (server.js): an in-memory map from task
  identifiers to task records, the POST /run submission handler, the
  GET /status handler, and the child-process lifecycle callbacks
  (close and spawn error);
* the control-plane orchestrator (src/index.ts): the runAgent poll loop,
  the output derivation over terminal status payloads, the log store
  write-out, the best-effort notifier dispatch, and getAgentLogs.

Machine integers are modelled as Nat or Int; the JSON values the executor
can place in a task result are modelled by the inductive ResultVal, with
library JSON parsing (JSON.parse) abstracted as an explicit parse oracle
of type String to Option ResultVal.
-/

namespace ClaudeContainer

/-- Task status, server.js task.status field: running, completed, failed. -/
inductive TaskStatus where
  | running
  | completed
  | failed
deriving DecidableEq

/-- JSON-ish value stored as a parsed task result.  JSON.parse of the
accumulated stdout can produce a string, an object (whose raw and result
fields the poller reads, per the TypeScript annotation both optional
strings; remaining fields are kept for the structured dump), a number, or
null.  Arrays are not modelled; no claim depends on them. -/
inductive ResultVal where
  | rstr (s : String)
  | robj (raw : Option String) (result : Option String) (extra : List (String × String))
  | rnum (n : Int)
  | rnull
deriving DecidableEq

/-- JS truthiness of an optional string field: present and non-empty. -/
def strTruthy : Option String → Bool
  | none => false
  | some s => s != ""

def optStr (o : Option String) : String := o.getD ""

/-- Model of JSON.stringify(v, null, 2) on an object; the exact layout is
irrelevant to every claim, only that the dump branch is taken. -/
def jsonDumpObj (raw result : Option String) (extra : List (String × String)) : String :=
  let fields :=
    (match raw with | some r => [("raw", r)] | none => []) ++
    (match result with | some r => [("result", r)] | none => []) ++ extra
  "\x7b" ++ String.intercalate "," (fields.map (fun f => "\n  \"" ++ f.1 ++ "\": \"" ++ f.2 ++ "\"")) ++ "\n\x7d"

/-- Model of JSON.stringify(v, null, 2) on an arbitrary result value. -/
def jsonDump : ResultVal → String
  | .rstr s => "\"" ++ s ++ "\""
  | .robj raw result extra => jsonDumpObj raw result extra
  | .rnum n => toString n
  | .rnull => "null"

/-- The task record held in the tasks map (server.js lines 56-63 for the
initial fields; endTime, result and error are added by the lifecycle
callbacks). -/
structure TaskRecord where
  status : TaskStatus
  startTime : Nat
  stdout : String
  stderr : String
  exitCode : Option Int
  cwd : String
  endTime : Option Nat
  result : Option ResultVal
  error : Option String
deriving DecidableEq

/-- The in-memory tasks Map, modelled extensionally. -/
abbrev Store := String → Option TaskRecord

def emptyStore : Store := fun _ => none

def storeGet (s : Store) (k : String) : Option TaskRecord := s k

def storeSet (s : Store) (k : String) (v : TaskRecord) : Store :=
  fun q => if q = k then some v else s q

def storeDelete (s : Store) (k : String) : Store :=
  fun q => if q = k then none else s q

/-! ## Submission (POST /run handler, server.js lines 34-122) -/

/-- The parsed request body fields the handler reads. -/
structure SubmitRequest where
  prompt : Option String
  workdir : Option String
  agentId : Option String
deriving DecidableEq

inductive SubmitOutcome where
  /-- 202 with taskId and status running. -/
  | accepted (taskId : String)
  /-- 400 with an error message. -/
  | badRequest (msg : String)
deriving DecidableEq

/-- Filesystem and process side effects of the handler. -/
inductive Effect where
  | ensureDir (path : String)
  | spawnProcess (prompt : String) (cwd : String)
deriving DecidableEq

def WORKSPACE : String := "/workspace"

/-- The record registered by tasks.set at submission (server.js 56-63). -/
def newTaskRecord (now : Nat) (cwd : String) : TaskRecord :=
  { status := .running, startTime := now, stdout := "", stderr := "",
    exitCode := none, cwd := cwd, endTime := none, result := none, error := none }

/-- POST /run: validate the prompt, then build taskId and cwd, ensure the
directory, register a fresh running record (tasks.set) and spawn the
process, answering 202 immediately. -/
def submit (req : SubmitRequest) (now : Nat) (tasks : Store) :
    SubmitOutcome × Store × List Effect :=
  if strTruthy req.prompt = false then
    (.badRequest "prompt required", tasks, [])
  else
    let prompt := optStr req.prompt
    let taskId := if strTruthy req.agentId then optStr req.agentId
                  else "task-" ++ toString now
    let cwd := if strTruthy req.workdir then WORKSPACE ++ "/" ++ optStr req.workdir
               else WORKSPACE
    (.accepted taskId,
     storeSet tasks taskId (newTaskRecord now cwd),
     [.ensureDir cwd, .spawnProcess prompt cwd])

/-! ## Status query (GET /status handler, server.js lines 125-157) -/

/-- The JSON body served for a found task.  The terminal-only fields are
options; serialization drops the none fields, matching the undefined
fields of the JS object. -/
structure StatusBody where
  taskId : String
  status : TaskStatus
  startTime : Nat
  elapsed : Nat
  endTime : Option Nat
  exitCode : Option Int
  result : Option ResultVal
  stderr : Option String
  error : Option String
deriving DecidableEq

inductive StatusResponse where
  | notFound
  | ok (body : StatusBody)
deriving DecidableEq

/-- GET /status: look the task up; 404 when absent; otherwise serve the
snapshot, attaching the terminal fields and deleting the record exactly
when the status is completed or failed. -/
def statusQuery (now : Nat) (tasks : Store) (taskId : String) :
    StatusResponse × Store :=
  match storeGet tasks taskId with
  | none => (.notFound, tasks)
  | some task =>
    if task.status = .completed ∨ task.status = .failed then
      (.ok { taskId := taskId, status := task.status, startTime := task.startTime,
             elapsed := now - task.startTime,
             endTime := task.endTime, exitCode := task.exitCode,
             result := task.result,
             stderr := if task.stderr != "" then some task.stderr else none,
             error := if strTruthy task.error then task.error else none },
       storeDelete tasks taskId)
    else
      (.ok { taskId := taskId, status := task.status, startTime := task.startTime,
             elapsed := now - task.startTime,
             endTime := none, exitCode := none, result := none,
             stderr := none, error := none },
       tasks)

/-! ## Process lifecycle callbacks (server.js lines 89-106) -/

/-- The close callback: set status from the exit code, record the exit
code and end time, and parse stdout, falling back to a raw wrapper when
parsing fails.  parse is the JSON.parse oracle. -/
def handleClose (parse : String → Option ResultVal) (code : Option Int)
    (now : Nat) (t : TaskRecord) : TaskRecord :=
  { t with
    status := if code = some 0 then .completed else .failed,
    exitCode := code,
    endTime := some now,
    result := some (match parse t.stdout with
                    | some v => v
                    | none => .robj (some t.stdout) none []) }

/-- The spawn-error callback: mark failed with the error message. -/
def handleError (msg : String) (now : Nat) (t : TaskRecord) : TaskRecord :=
  { t with status := .failed, error := some msg, endTime := some now }

/-- A lifecycle event delivered to the callbacks of one task. -/
inductive ProcEvent where
  | closeEv (code : Option Int) (time : Nat)
  | errorEv (msg : String) (time : Nat)
deriving DecidableEq

def applyEvent (parse : String → Option ResultVal) (t : TaskRecord) :
    ProcEvent → TaskRecord
  | .closeEv c n => handleClose parse c n t
  | .errorEv m n => handleError m n t

def applyEvents (parse : String → Option ResultVal) (evs : List ProcEvent)
    (t : TaskRecord) : TaskRecord :=
  evs.foldl (applyEvent parse) t

def isCloseEv : ProcEvent → Bool
  | .closeEv .. => true
  | .errorEv .. => false

def isErrorEv : ProcEvent → Bool
  | .closeEv .. => false
  | .errorEv .. => true

/-- Well-formed event deliveries for one child process, tracked from the
flags seenClose and seenError: a close event is delivered at most once
and is the last event, and a close following a spawn error does not carry
exit code 0 (a failed spawn never exits successfully). -/
def wfFrom : Bool → Bool → List ProcEvent → Bool
  | _, _, [] => true
  | sc, se, .closeEv c _ :: rest => !sc && (!se || c != some 0) && wfFrom true se rest
  | sc, _, .errorEv _ _ :: rest => !sc && wfFrom sc true rest

def wfEvents (evs : List ProcEvent) : Bool := wfFrom false false evs

/-! ## Orchestrator (src/index.ts) -/

def POLL_INTERVAL_MS : Nat := 5000

def MAX_WAIT_MS : Nat := 600000

/-- Math.ceil on a division of non-negative integers. -/
def ceilDiv (a b : Nat) : Nat := (a + b - 1) / b

/-- maxAttempts = Math.ceil(MAX_WAIT_MS / POLL_INTERVAL_MS). -/
def maxAttempts : Nat := ceilDiv MAX_WAIT_MS POLL_INTERVAL_MS

/-- The status payload as read by the poller: the JSON of the status
response, with the fields the poller touches. -/
structure StatusPayload where
  status : TaskStatus
  result : Option ResultVal
  error : Option String
  stderr : Option String
  exitCode : Option Int
deriving DecidableEq

def isTerminal (p : StatusPayload) : Bool :=
  p.status == .completed || p.status == .failed

inductive PollResult where
  | finished (p : StatusPayload) (polls : Nat)
  | timedOut (polls : Nat)
deriving DecidableEq

def pollsOf : PollResult → Nat
  | .finished _ n => n
  | .timedOut n => n

/-- One run of the poll loop body: while attempts are left, sleep, issue
the next status poll (the oracle f gives the payload of the n-th poll),
and stop on a terminal payload.  Exhausting the ceiling is the timeout. -/
def pollLoopAux (f : Nat → StatusPayload) : Nat → Nat → PollResult
  | 0, polls => .timedOut polls
  | k + 1, polls =>
    let p := f (polls + 1)
    if isTerminal p then .finished p (polls + 1) else pollLoopAux f k (polls + 1)

def pollLoop (f : Nat → StatusPayload) : PollResult := pollLoopAux f maxAttempts 0

/-- Output derivation over a terminal payload (src/index.ts lines 146-166):
a truthy error field raises; else the output falls back through string
result, truthy raw, truthy result field, full dump; a truthy stderr is
appended as a suffix. -/
def resultTruthy : Option ResultVal → Bool
  | none => false
  | some (.rstr s) => s != ""
  | some (.robj ..) => true
  | some (.rnum n) => n != 0
  | some .rnull => false

def deriveOutput (p : StatusPayload) : Except String String :=
  if strTruthy p.error then .error (optStr p.error)
  else
    let output := "No output"
    let output :=
      if resultTruthy p.result then
        match p.result with
        | some (.rstr s) => s
        | some (.robj raw res extra) =>
          if strTruthy raw then optStr raw
          else if strTruthy res then optStr res
          else jsonDumpObj raw res extra
        | some (.rnum n) => toString n
        | some .rnull => output
        | none => output
      else output
    let output := if strTruthy p.stderr then output ++ "\n\nStderr: " ++ optStr p.stderr
                  else output
    .ok output

/-- The output derivation exactly as the claim words it, reading the
precedence on field PRESENCE (a present error raises, a present raw field
is used, and so on) rather than on JS truthiness.  Used to exhibit where
the claim, read literally, diverges from the code. -/
def presenceOutput (p : StatusPayload) : Except String String :=
  match p.error with
  | some e => .error e
  | none =>
    let core :=
      match p.result with
      | some (.rstr s) => s
      | some (.robj (some r) _ _) => r
      | some (.robj none (some x) _) => x
      | some (.robj none none extra) => jsonDumpObj none none extra
      | some (.rnum n) => toString n
      | some .rnull => "null"
      | none => "No output"
    match p.stderr with
    | some s => .ok (core ++ "\n\nStderr: " ++ s)
    | none => .ok core

/-- The amended derivation: the same fallback precedence, selecting the
first truthy candidate (JS truthiness: non-empty string, any object,
non-zero number), with the sentinel when no result value is truthy, and a
truthy stderr appended. -/
def truthyCore : Option ResultVal → Option String
  | some (.rstr s) => if s = "" then none else some s
  | some (.robj raw res extra) =>
    if strTruthy raw then some (optStr raw)
    else if strTruthy res then some (optStr res)
    else some (jsonDumpObj raw res extra)
  | some (.rnum n) => if n = 0 then none else some (toString n)
  | some .rnull => none
  | none => none

def truthyPrecedenceOutput (p : StatusPayload) : Except String String :=
  if strTruthy p.error then .error (optStr p.error)
  else
    let core := (truthyCore p.result).getD "No output"
    .ok (if strTruthy p.stderr then core ++ "\n\nStderr: " ++ optStr p.stderr else core)

/-! ### runAgent outcome handling (src/index.ts lines 79-225) -/

/-- A LogEntry value as written to the log store: the success flag and the
output or error text (the other fields carry timestamps and names that no
claim inspects). -/
structure LogRecord where
  success : Bool
  text : String
deriving DecidableEq

/-- How a runAgent invocation ends for its caller: the success envelope,
the failure envelope, or an unhandled rejection escaping the call (no
envelope at all). -/
inductive AgentOutcome where
  | ok (output : String)
  | err (message : String)
  | unhandled (message : String)
deriving DecidableEq

/-- The rejection message of a failed notifier fetch. -/
def slackFailMsg : String := "notifier dispatch failed"

/-- Task timed out after MAX_WAIT_MS / 1000 seconds. -/
def timeoutMsg : String := "Task timed out after 600 seconds"

def failedMsg (exitCode : Option Int) (output : String) : String :=
  "Task failed with exit code " ++
    (match exitCode with | some c => toString c | none => "undefined") ++
    ": " ++ output

/-- The catch block of runAgent: write the error LogEntry, then dispatch
the notifier when a webhook is configured; a rejecting notifier fetch
escapes the catch block, so the call ends as an unhandled rejection. -/
def catchPath (webhookConfigured notifierOk : Bool) (msg : String)
    (logs : List LogRecord) : AgentOutcome × List LogRecord :=
  let logs := logs ++ [⟨false, msg⟩]
  if webhookConfigured && !notifierOk then (.unhandled slackFailMsg, logs)
  else (.err msg, logs)

/-- runAgent after agent resolution and successful submission, driven by
the status oracle f: poll to a terminal payload, derive the output (an
error field raises into the catch), raise on a failed status, write the
success LogEntry, then dispatch the notifier — whose rejection, being
awaited inside the try block, lands in the catch and there rejects
again. -/
def runAgent (webhookConfigured notifierOk : Bool) (f : Nat → StatusPayload) :
    AgentOutcome × List LogRecord :=
  match pollLoop f with
  | .timedOut _ => catchPath webhookConfigured notifierOk timeoutMsg []
  | .finished p _ =>
    match deriveOutput p with
    | .error e => catchPath webhookConfigured notifierOk e []
    | .ok output =>
      if p.status = .failed then
        catchPath webhookConfigured notifierOk (failedMsg p.exitCode output) []
      else
        let logs : List LogRecord := [⟨true, output⟩]
        if webhookConfigured && !notifierOk then
          catchPath webhookConfigured notifierOk slackFailMsg logs
        else (.ok output, logs)

/-! ### Log retrieval (getAgentLogs, src/index.ts lines 249-268) -/

/-- The stored LogEntry fields that getAgentLogs formats. -/
structure LogValue where
  timestamp : String
  success : Bool
  duration : String
  output : Option String
  error : Option String
deriving DecidableEq

def formatLog (v : LogValue) : String :=
  "[" ++ v.timestamp ++ "] " ++ (if v.success then "✅" else "❌") ++
  " Duration: " ++ v.duration ++ "\n" ++
  (if strTruthy v.output then optStr v.output
   else if strTruthy v.error then optStr v.error
   else "undefined")

def logSeparator : String := "\n\n---\n\n"

/-- getAgentLogs over the listed entries of one agent.  The entries are
keyed by the start-time milliseconds embedded in the storage key; the KV
listing is lexicographic on keys, which for the equal-width millisecond
timestamps is exactly the timestamp order, so the model receives the
listing as (timestamp, value) pairs and the sortedness is a hypothesis of
the theorem.  slice(-5) is drop (length - 5). -/
def getAgentLogs (entries : List (Nat × LogValue)) : String :=
  if entries.length = 0 then "No logs found"
  else String.intercalate logSeparator
    ((entries.drop (entries.length - 5)).map (fun e => formatLog e.2))

end ClaudeContainer

namespace ClaudeContainer

/-! ## Theorems for the executor-side claims -/

/-- C7: a submission whose prompt is empty or missing is rejected with the
400 validation error, and has no side effect: the store is unchanged, no
directory is created and no process is spawned. -/
theorem submit_empty_prompt_rejected (req : SubmitRequest) (now : Nat) (tasks : Store)
    (h : req.prompt = none ∨ req.prompt = some "") :
    submit req now tasks = (.badRequest "prompt required", tasks, []) := by
  rcases h with h | h <;> simp [submit, strTruthy, h]

theorem submit_empty_prompt_rejected_witness :
    (({ prompt := some "", workdir := none, agentId := none } : SubmitRequest).prompt = none ∨
      ({ prompt := some "", workdir := none, agentId := none } : SubmitRequest).prompt = some "") ∧
    submit { prompt := some "", workdir := none, agentId := none } 42 emptyStore =
      (.badRequest "prompt required", emptyStore, []) :=
  ⟨Or.inr rfl,
   submit_empty_prompt_rejected { prompt := some "", workdir := none, agentId := none } 42
     emptyStore (Or.inr rfl)⟩

/-- C10: a status query observing a running task leaves the store (hence
the record) completely unchanged, and the response carries exactly taskId,
status, startTime and elapsed; every terminal-only field is absent. -/
theorem status_query_running_frame (now : Nat) (tasks : Store) (id : String)
    (t : TaskRecord) (hget : storeGet tasks id = some t)
    (hrun : t.status = .running) :
    statusQuery now tasks id =
      (.ok { taskId := id, status := .running, startTime := t.startTime,
             elapsed := now - t.startTime,
             endTime := none, exitCode := none, result := none,
             stderr := none, error := none },
       tasks) := by
  simp [statusQuery, hget, hrun]

def sampleRunningStore : Store := storeSet emptyStore "t1" (newTaskRecord 7 WORKSPACE)

theorem status_query_running_frame_witness :
    storeGet sampleRunningStore "t1" = some (newTaskRecord 7 WORKSPACE) ∧
    (newTaskRecord 7 WORKSPACE).status = .running ∧
    statusQuery 20 sampleRunningStore "t1" =
      (.ok { taskId := "t1", status := .running, startTime := 7, elapsed := 13,
             endTime := none, exitCode := none, result := none,
             stderr := none, error := none },
       sampleRunningStore) :=
  ⟨rfl, rfl,
   status_query_running_frame 20 sampleRunningStore "t1" (newTaskRecord 7 WORKSPACE) rfl rfl⟩

/-- C1: a status query observing a terminal record serves a snapshot that
includes the parsed result, removes the record from the store, and any
repeat query for the same id against the resulting store answers
NotFound. -/
theorem status_query_terminal_collects (now after : Nat) (tasks : Store) (id : String)
    (t : TaskRecord) (hget : storeGet tasks id = some t)
    (hterm : t.status = .completed ∨ t.status = .failed) :
    (∃ body, (statusQuery now tasks id).1 = .ok body ∧
      body.status = t.status ∧ body.result = t.result ∧
      body.exitCode = t.exitCode ∧ body.endTime = t.endTime) ∧
    (statusQuery now tasks id).2 = storeDelete tasks id ∧
    storeGet (statusQuery now tasks id).2 id = none ∧
    (statusQuery after (statusQuery now tasks id).2 id).1 = .notFound := by
  have hq : statusQuery now tasks id =
      (.ok { taskId := id, status := t.status, startTime := t.startTime,
             elapsed := now - t.startTime,
             endTime := t.endTime, exitCode := t.exitCode, result := t.result,
             stderr := if t.stderr != "" then some t.stderr else none,
             error := if strTruthy t.error then t.error else none },
       storeDelete tasks id) := by
    simp [statusQuery, hget, hterm]
  refine ⟨⟨_, by rw [hq], rfl, rfl, rfl, rfl⟩, by rw [hq], ?_, ?_⟩
  · rw [hq]
    simp [storeGet, storeDelete]
  · rw [hq]
    simp [statusQuery, storeGet, storeDelete]

def sampleDoneRecord : TaskRecord :=
  { status := .completed, startTime := 3, stdout := "out", stderr := "",
    exitCode := some 0, cwd := WORKSPACE, endTime := some 9,
    result := some (.rstr "hello"), error := none }

def sampleDoneStore : Store := storeSet emptyStore "t2" sampleDoneRecord

theorem status_query_terminal_collects_witness :
    storeGet sampleDoneStore "t2" = some sampleDoneRecord ∧
    (sampleDoneRecord.status = .completed ∨ sampleDoneRecord.status = .failed) ∧
    ((∃ body, (statusQuery 12 sampleDoneStore "t2").1 = .ok body ∧
        body.status = sampleDoneRecord.status ∧ body.result = sampleDoneRecord.result ∧
        body.exitCode = sampleDoneRecord.exitCode ∧ body.endTime = sampleDoneRecord.endTime) ∧
      (statusQuery 12 sampleDoneStore "t2").2 = storeDelete sampleDoneStore "t2" ∧
      storeGet (statusQuery 12 sampleDoneStore "t2").2 "t2" = none ∧
      (statusQuery 15 (statusQuery 12 sampleDoneStore "t2").2 "t2").1 = .notFound) :=
  ⟨rfl, Or.inl rfl,
   status_query_terminal_collects 12 15 sampleDoneStore "t2" sampleDoneRecord rfl (Or.inl rfl)⟩

/-- C2: the code violates the claim.  Submitting with an explicit agentId
while a record with that id is still running is accepted and the in-flight
record is silently replaced by a fresh one: the accumulated stdout of the
earlier task is lost.  The spec itself (design note on in-flight id reuse)
flags the observed overwrite as a defect, so the claim states the intent
and the code is the slip. -/
def inFlightRecord : TaskRecord :=
  { status := .running, startTime := 5, stdout := "partial earlier output",
    stderr := "", exitCode := none, cwd := WORKSPACE, endTime := none,
    result := none, error := none }

def inFlightStore : Store := storeSet emptyStore "agent-1" inFlightRecord

def resubmitReq : SubmitRequest :=
  { prompt := some "second prompt", workdir := none, agentId := some "agent-1" }

theorem submit_overwrites_running_record :
    (submit resubmitReq 100 inFlightStore).1 = .accepted "agent-1" ∧
    storeGet (submit resubmitReq 100 inFlightStore).2.1 "agent-1" =
      some (newTaskRecord 100 WORKSPACE) ∧
    newTaskRecord 100 WORKSPACE ≠ inFlightRecord ∧
    (storeGet (submit resubmitReq 100 inFlightStore).2.1 "agent-1").map TaskRecord.stdout =
      some "" :=
  ⟨rfl, rfl, by decide, rfl⟩

/-! ## Theorems for the lifecycle claims (C3, C8) -/

/-- C8: on process exit the task is completed exactly when the exit code
is 0 and failed otherwise (including the absent code of a signal kill);
the stored result is the parse of the accumulated stdout, falling back to
the raw wrapper on parse failure; and the resulting status is independent
of the parse oracle, so a parse failure is never surfaced as a task
failure. -/
theorem close_exit_code_and_parse_fallback (parse : String → Option ResultVal)
    (code : Option Int) (now : Nat) (t : TaskRecord) :
    ((handleClose parse code now t).status = .completed ↔ code = some 0) ∧
    ((handleClose parse code now t).status = .failed ↔ code ≠ some 0) ∧
    (handleClose parse code now t).exitCode = code ∧
    (handleClose parse code now t).result =
      some (match parse t.stdout with
            | some v => v
            | none => .robj (some t.stdout) none []) ∧
    (∀ parse₂ : String → Option ResultVal,
      (handleClose parse₂ code now t).status = (handleClose parse code now t).status) := by
  by_cases hc : code = some 0 <;> simp [handleClose, hc]

/-- A sample parse oracle that fails on every input, standing in for
JSON.parse on non-JSON stdout. -/
def parseNone : String → Option ResultVal := fun _ => none

def freshTask : TaskRecord := newTaskRecord 0 WORKSPACE

/-- C3 counterexample: the spawn-error callback assigns failed without any
guard, so in the event sequence close(0) followed by error the record
first becomes Completed and then regresses to Failed — the claim, read
over any sequence of lifecycle events, is false. -/
theorem close_then_error_regresses :
    (applyEvents parseNone [ProcEvent.closeEv (some 0) 10] freshTask).status = .completed ∧
    (applyEvents parseNone [ProcEvent.closeEv (some 0) 10, ProcEvent.errorEv "spawn failure" 11]
        freshTask).status = .failed ∧
    TaskStatus.failed ≠ TaskStatus.completed :=
  ⟨rfl, rfl, by decide⟩

theorem wfFrom_append (a b : List ProcEvent) : ∀ sc se : Bool,
    wfFrom sc se (a ++ b) = true →
    wfFrom sc se a = true ∧
    wfFrom (sc || a.any isCloseEv) (se || a.any isErrorEv) b = true := by
  induction a with
  | nil =>
    intro sc se h
    simpa [wfFrom] using h
  | cons e a ih =>
    intro sc se h
    cases e with
    | closeEv c n =>
      rw [List.cons_append] at h
      simp only [wfFrom, Bool.and_eq_true] at h
      obtain ⟨⟨h1, h2⟩, h3⟩ := h
      obtain ⟨ha, hb⟩ := ih true se h3
      refine ⟨?_, ?_⟩
      · simp only [wfFrom, Bool.and_eq_true]
        exact ⟨⟨h1, h2⟩, ha⟩
      · simpa [isCloseEv, isErrorEv] using hb
    | errorEv m n =>
      rw [List.cons_append] at h
      simp only [wfFrom, Bool.and_eq_true] at h
      obtain ⟨h1, h2⟩ := h
      obtain ⟨ha, hb⟩ := ih sc true h2
      refine ⟨?_, ?_⟩
      · simp only [wfFrom, Bool.and_eq_true]
        exact ⟨h1, ha⟩
      · simpa [isCloseEv, isErrorEv] using hb

/-- Record invariant threaded through the event fold: a completed status
can only have arisen from an already-seen close event, and a failed one
from a seen close or a seen spawn error. -/
def TaskInv (t : TaskRecord) (sc se : Bool) : Prop :=
  (t.status = .completed → sc = true) ∧ (t.status = .failed → sc = true ∨ se = true)

theorem taskInv_of_running {t : TaskRecord} (h : t.status = .running) (sc se : Bool) :
    TaskInv t sc se := by
  refine ⟨fun h2 => ?_, fun h2 => ?_⟩ <;> rw [h] at h2 <;> exact absurd h2 (by decide)

theorem applyEvents_taskInv (parse : String → Option ResultVal) :
    ∀ (a : List ProcEvent) (t : TaskRecord) (sc se : Bool),
    wfFrom sc se a = true → TaskInv t sc se →
    TaskInv (applyEvents parse a t) (sc || a.any isCloseEv) (se || a.any isErrorEv) := by
  intro a
  induction a with
  | nil =>
    intro t sc se _ hI
    simpa [applyEvents] using hI
  | cons e a ih =>
    intro t sc se h hI
    cases e with
    | closeEv c n =>
      simp only [wfFrom, Bool.and_eq_true] at h
      obtain ⟨⟨h1, h2⟩, h3⟩ := h
      have hI' : TaskInv (handleClose parse c n t) true se :=
        ⟨fun _ => rfl, fun _ => Or.inl rfl⟩
      have hrec := ih (handleClose parse c n t) true se h3 hI'
      simpa [applyEvents, applyEvent, isCloseEv, isErrorEv] using hrec
    | errorEv m n =>
      simp only [wfFrom, Bool.and_eq_true] at h
      obtain ⟨h1, h2⟩ := h
      have hI' : TaskInv (handleError m n t) sc true :=
        ⟨fun hc => by simp [handleError] at hc, fun _ => Or.inr rfl⟩
      have hrec := ih (handleError m n t) sc true h2 hI'
      simpa [applyEvents, applyEvent, isCloseEv, isErrorEv] using hrec

theorem stable_from_taskInv (parse : String → Option ResultVal) :
    ∀ (b : List ProcEvent) (t : TaskRecord) (sc se : Bool),
    wfFrom sc se b = true → TaskInv t sc se → t.status ≠ .running →
    (applyEvents parse b t).status = t.status := by
  intro b
  induction b with
  | nil =>
    intro t sc se _ _ _
    rfl
  | cons e b ih =>
    intro t sc se h hI hne
    cases e with
    | closeEv c n =>
      simp only [wfFrom, Bool.and_eq_true] at h
      obtain ⟨⟨h1, h2⟩, h3⟩ := h
      have hsc : sc = false := by simpa using h1
      cases hst : t.status with
      | running => exact absurd hst hne
      | completed => exact absurd (hI.1 hst) (by simp [hsc])
      | failed =>
        have hse : se = true := by
          rcases hI.2 hst with h' | h'
          · rw [hsc] at h'
            exact absurd h' (by decide)
          · exact h'
        have hc0 : c ≠ some 0 := by
          rw [hse] at h2
          simpa using h2
        have hstat : (handleClose parse c n t).status = .failed := by
          simp [handleClose, hc0]
        have hI' : TaskInv (handleClose parse c n t) true se :=
          ⟨fun _ => rfl, fun _ => Or.inl rfl⟩
        have hrec := ih (handleClose parse c n t) true se h3 hI' (by rw [hstat]; decide)
        calc (applyEvents parse (ProcEvent.closeEv c n :: b) t).status
            = (applyEvents parse b (handleClose parse c n t)).status := rfl
          _ = (handleClose parse c n t).status := hrec
          _ = .failed := hstat
    | errorEv m n =>
      simp only [wfFrom, Bool.and_eq_true] at h
      obtain ⟨h1, h2⟩ := h
      cases hst : t.status with
      | running => exact absurd hst hne
      | completed =>
        have hsc : sc = false := by simpa using h1
        exact absurd (hI.1 hst) (by simp [hsc])
      | failed =>
        have hI' : TaskInv (handleError m n t) sc true :=
          ⟨fun hc => by simp [handleError] at hc, fun _ => Or.inr rfl⟩
        have hrec := ih (handleError m n t) sc true h2 hI' (by simp [handleError])
        calc (applyEvents parse (ProcEvent.errorEv m n :: b) t).status
            = (applyEvents parse b (handleError m n t)).status := rfl
          _ = (handleError m n t).status := hrec
          _ = .failed := rfl

/-- C3 amended: the terminal status is stable under every well-formed
delivery of lifecycle events — at most one close event, delivered last,
and any close following a spawn error carrying a non-zero (or absent)
exit code; without those ordering assumptions the unguarded handlers
re-write a terminal status (see the counterexample).  Status queries
never mutate the status field of a stored record: the store after a query
holds the same record for the queried id or none at all. -/
theorem status_terminal_stable :
    (∀ (parse : String → Option ResultVal) (a b : List ProcEvent) (t0 : TaskRecord),
       t0.status = .running → wfEvents (a ++ b) = true →
       (applyEvents parse a t0).status ≠ .running →
       (applyEvents parse (a ++ b) t0).status = (applyEvents parse a t0).status) ∧
    (∀ (now : Nat) (tasks : Store) (id : String),
       storeGet (statusQuery now tasks id).2 id = storeGet tasks id ∨
       storeGet (statusQuery now tasks id).2 id = none) := by
  constructor
  · intro parse a b t0 h0 hwf hterm
    obtain ⟨ha, hb⟩ := wfFrom_append a b false false hwf
    have hI := applyEvents_taskInv parse a t0 false false ha (taskInv_of_running h0 false false)
    have hb' : wfFrom (a.any isCloseEv) (a.any isErrorEv) b = true := by simpa using hb
    have hI' : TaskInv (applyEvents parse a t0) (a.any isCloseEv) (a.any isErrorEv) := by
      simpa using hI
    have hsplit : applyEvents parse (a ++ b) t0 = applyEvents parse b (applyEvents parse a t0) := by
      simp [applyEvents, List.foldl_append]
    rw [hsplit]
    exact stable_from_taskInv parse b (applyEvents parse a t0) (a.any isCloseEv)
      (a.any isErrorEv) hb' hI' hterm
  · intro now tasks id
    rcases hget : storeGet tasks id with _ | t
    · left
      simp [statusQuery, hget]
    · by_cases hterm : t.status = .completed ∨ t.status = .failed
      · right
        have hget' : tasks id = some t := hget
        simp [statusQuery, storeGet, storeDelete, hget', hterm]
      · left
        simp [statusQuery, hget, hterm]

theorem status_terminal_stable_witness :
    freshTask.status = .running ∧
    wfEvents ([ProcEvent.errorEv "boom" 5] ++ [ProcEvent.closeEv (some 1) 7]) = true ∧
    (applyEvents parseNone [ProcEvent.errorEv "boom" 5] freshTask).status ≠ .running ∧
    (applyEvents parseNone ([ProcEvent.errorEv "boom" 5] ++ [ProcEvent.closeEv (some 1) 7])
        freshTask).status =
      (applyEvents parseNone [ProcEvent.errorEv "boom" 5] freshTask).status :=
  ⟨rfl, rfl, by decide,
   status_terminal_stable.1 parseNone [ProcEvent.errorEv "boom" 5]
     [ProcEvent.closeEv (some 1) 7] freshTask rfl rfl (by decide)⟩

/-! ## Theorems for the poll loop (C5) -/

theorem pollsOf_pollLoopAux_le (f : Nat → StatusPayload) :
    ∀ (k polls : Nat), pollsOf (pollLoopAux f k polls) ≤ polls + k := by
  intro k
  induction k with
  | zero =>
    intro polls
    simp [pollLoopAux, pollsOf]
  | succ k ih =>
    intro polls
    simp only [pollLoopAux]
    split
    · simp only [pollsOf]
      omega
    · have h := ih (polls + 1)
      omega

theorem pollLoopAux_all_running (f : Nat → StatusPayload)
    (hf : ∀ n, isTerminal (f n) = false) :
    ∀ (k polls : Nat), pollLoopAux f k polls = .timedOut (polls + k) := by
  intro k
  induction k with
  | zero =>
    intro polls
    simp [pollLoopAux]
  | succ k ih =>
    intro polls
    have h := hf (polls + 1)
    simp only [pollLoopAux, h]
    rw [if_neg (by simp)]
    rw [ih (polls + 1)]
    congr 1
    omega

/-- C5: with a 5000 ms poll interval and a 600000 ms wait bound, the
attempt ceiling is the ceiling of their quotient, namely 120; no run of
the poll loop issues more than 120 status polls, and a run that never
observes a terminal payload stops after exactly 120 polls with the
timeout outcome (which runAgent raises as the timeout error). -/
theorem poll_ceiling_is_120 :
    maxAttempts = ceilDiv MAX_WAIT_MS POLL_INTERVAL_MS ∧
    maxAttempts = 120 ∧
    (∀ f : Nat → StatusPayload, pollsOf (pollLoop f) ≤ 120) ∧
    (∀ f : Nat → StatusPayload, (∀ n, isTerminal (f n) = false) →
      pollLoop f = .timedOut 120) := by
  have h120 : maxAttempts = 120 := rfl
  refine ⟨rfl, h120, ?_, ?_⟩
  · intro f
    have h := pollsOf_pollLoopAux_le f maxAttempts 0
    rw [h120] at h
    simpa [pollLoop, h120] using h
  · intro f hf
    have h := pollLoopAux_all_running f hf maxAttempts 0
    rw [h120] at h
    simpa [pollLoop, h120] using h

def runningPayload : StatusPayload :=
  { status := .running, result := none, error := none, stderr := none, exitCode := none }

theorem poll_ceiling_is_120_witness :
    (∀ n : Nat, isTerminal ((fun _ => runningPayload) n) = false) ∧
    pollLoop (fun _ => runningPayload) = .timedOut 120 :=
  ⟨fun _ => rfl, poll_ceiling_is_120.2.2.2 (fun _ => runningPayload) (fun _ => rfl)⟩

/-! ## Theorems for the output derivation (C4) -/

/-- C4 counterexample: on the payload whose result is the object with a
PRESENT but empty raw field and a non-empty result field, the code skips
the empty raw (JS truthiness) and serves the result field, while the
claim, read on field presence, would serve the empty raw. -/
def rawEmptyPayload : StatusPayload :=
  { status := .completed, result := some (.robj (some "") (some "x") []),
    error := none, stderr := none, exitCode := some 0 }

theorem derive_output_presence_counterexample :
    deriveOutput rawEmptyPayload = .ok "x" ∧
    presenceOutput rawEmptyPayload = .ok "" ∧
    deriveOutput rawEmptyPayload ≠ presenceOutput rawEmptyPayload :=
  ⟨rfl, rfl, fun h => absurd (Except.ok.inj h) (by decide)⟩

/-- C4 amended: for every terminal payload, structured or opaque, the
derived output equals the fallback-precedence derivation selecting the
first truthy candidate — a truthy error raises, else a string result, a
truthy raw field, a truthy result field, the full dump of a truthy result
value, the sentinel otherwise — with a truthy stderr appended as a
suffix. -/
theorem derive_output_truthy_precedence (p : StatusPayload) :
    deriveOutput p = truthyPrecedenceOutput p := by
  rcases p with ⟨st, r, er, sd, ec⟩
  rcases r with _ | v
  · simp [deriveOutput, truthyPrecedenceOutput, truthyCore, resultTruthy]
  · rcases v with s | ⟨raw, res, extra⟩ | n | _
    · by_cases hs : s = "" <;>
        simp [deriveOutput, truthyPrecedenceOutput, truthyCore, resultTruthy, hs]
    · simp only [deriveOutput, truthyPrecedenceOutput, truthyCore, resultTruthy]
      split_ifs <;> simp
    · by_cases hn : n = 0 <;>
        simp [deriveOutput, truthyPrecedenceOutput, truthyCore, resultTruthy, hn]
    · simp [deriveOutput, truthyPrecedenceOutput, truthyCore, resultTruthy]

/-! ## Theorems for logging and notification (C6) -/

/-- C6: the code violates the claim.  A configured webhook whose dispatch
rejects is awaited without any guard: on a successfully completed task
the rejection falls into the catch block, which writes a SECOND LogEntry
and dispatches the notifier again, whose rejection then escapes runAgent
— two LogEntries are written and the caller receives an unhandled
rejection instead of the success envelope.  When the notifier resolves,
the claimed behaviour (one LogEntry, outcome unchanged) does hold. -/
def donePayload : StatusPayload :=
  { status := .completed, result := some (.rstr "analysis done"),
    error := none, stderr := none, exitCode := some 0 }

theorem notifier_rejection_breaks_contract :
    runAgent true true (fun _ => donePayload) =
      (.ok "analysis done", [⟨true, "analysis done"⟩]) ∧
    runAgent true false (fun _ => donePayload) =
      (.unhandled slackFailMsg,
       [⟨true, "analysis done"⟩, ⟨false, slackFailMsg⟩]) ∧
    (runAgent true false (fun _ => donePayload)).2.length = 2 ∧
    (runAgent true false (fun _ => donePayload)).1 ≠
      (runAgent true true (fun _ => donePayload)).1 :=
  ⟨rfl, rfl, rfl, by decide⟩

/-! ## Theorems for log retrieval (C9) -/

/-- C9: over a listing sorted by the timestamp embedded in the storage
key, getAgentLogs yields the sentinel on an empty listing, and otherwise
the separator-joined formatting of exactly the last min 5 n entries,
which are themselves in chronological order and are the most recent ones:
every dropped entry has a timestamp at most that of every served one. -/
theorem getAgentLogs_recent_five (entries : List (Nat × LogValue))
    (hs : List.Sorted (· ≤ ·) (entries.map Prod.fst)) :
    (entries = [] → getAgentLogs entries = "No logs found") ∧
    (entries ≠ [] →
      getAgentLogs entries =
        String.intercalate logSeparator
          ((entries.drop (entries.length - 5)).map (fun e => formatLog e.2)) ∧
      (entries.drop (entries.length - 5)).length = min 5 entries.length ∧
      List.Sorted (· ≤ ·) ((entries.drop (entries.length - 5)).map Prod.fst) ∧
      (∀ x ∈ entries.take (entries.length - 5),
        ∀ y ∈ entries.drop (entries.length - 5), x.1 ≤ y.1)) := by
  constructor
  · intro h
    simp [getAgentLogs, h]
  · intro h
    have hlen : entries.length ≠ 0 := by
      simpa [List.length_eq_zero] using h
    refine ⟨?_, ?_, ?_, ?_⟩
    · simp [getAgentLogs, hlen]
    · rw [List.length_drop]
      omega
    · have hmap : (entries.drop (entries.length - 5)).map Prod.fst =
          (entries.map Prod.fst).drop (entries.length - 5) := by
        rw [List.map_drop]
      rw [hmap]
      exact List.Pairwise.sublist (List.drop_sublist _ _) hs
    · intro x hx y hy
      have hsplit : entries.map Prod.fst =
          (entries.take (entries.length - 5)).map Prod.fst ++
          (entries.drop (entries.length - 5)).map Prod.fst := by
        rw [← List.map_append, List.take_append_drop]
      have hs' := hs
      rw [hsplit] at hs'
      have hpair := (List.pairwise_append.mp hs').2.2
      exact hpair x.1 (List.mem_map_of_mem Prod.fst hx) y.1 (List.mem_map_of_mem Prod.fst hy)

def sampleLogValue : LogValue :=
  { timestamp := "2026-10-12T09:00:00Z", success := true, duration := "4.2s",
    output := some "report", error := none }

def sampleEntries : List (Nat × LogValue) := [(5, sampleLogValue)]

theorem getAgentLogs_recent_five_witness :
    List.Sorted (· ≤ ·) (sampleEntries.map Prod.fst) ∧
    sampleEntries ≠ [] ∧
    (getAgentLogs sampleEntries =
       String.intercalate logSeparator
         ((sampleEntries.drop (sampleEntries.length - 5)).map (fun e => formatLog e.2)) ∧
     (sampleEntries.drop (sampleEntries.length - 5)).length = min 5 sampleEntries.length ∧
     List.Sorted (· ≤ ·) ((sampleEntries.drop (sampleEntries.length - 5)).map Prod.fst) ∧
     (∀ x ∈ sampleEntries.take (sampleEntries.length - 5),
       ∀ y ∈ sampleEntries.drop (sampleEntries.length - 5), x.1 ≤ y.1)) :=
  ⟨by simp [sampleEntries], by simp [sampleEntries],
   (getAgentLogs_recent_five sampleEntries (by simp [sampleEntries])).2
     (by simp [sampleEntries])⟩

end ClaudeContainer
